import Mathlib

/-!
Verification of the eRPC repository's natural-language specification against
its source. The repository ships the benchmark/test applications
(`small_rpc_bandwidth`, `test_memcpy`, `test_large_msg`, `hello_world`); the
RPC engine itself (Rpc, Session, MsgBuffer allocator) is referenced by these
files but its implementation is not part of the source tree, so properties
that are decided by engine behaviour are modelled from the specification and
marked as such in their doc comments.

Machine integers are modelled as `Nat` with explicit `% 2 ^ w` where C
truncation matters; byte buffers are `List Nat` whose elements are byte
values; C `double` fields are modelled as `Rat` (the claims about them
concern only which fields an operation reads and writes, not rounding).
-/

namespace ERpcModel

/-- C `uint8_t` truncation: a value stored into a byte is taken modulo 256. -/
def byteMod (n : Nat) : Nat := n % 256

/-! ## tag_t (src/apps/small_rpc_bandwidth/small_rpc_bandwidth.cc, lines 34-52)

`union tag_t` packs two 32-bit bitfields `batch_i` (declared first, hence the
low 32 bits on the little-endian targets the code supports) and `msgbuf_i`
(high 32 bits) over a `void *_tag`. Encoding a pair writes both bitfields;
decoding reads them back. -/

/-- The 64-bit value stored in `tag_t::_tag` after `tag_t(batch_i, msgbuf_i)`:
`batch_i` occupies bits 0-31 and `msgbuf_i` bits 32-63, each truncated to 32
bits as bitfield stores are. -/
def tag_t_encode (batch_i msgbuf_i : Nat) : Nat :=
  batch_i % 2 ^ 32 + (msgbuf_i % 2 ^ 32) * 2 ^ 32

/-- Reading the `batch_i` bitfield back from a `tag_t` built over a `void *`. -/
def tag_t_batch_i (t : Nat) : Nat := t % 2 ^ 32

/-- Reading the `msgbuf_i` bitfield back from a `tag_t` built over a `void *`. -/
def tag_t_msgbuf_i (t : Nat) : Nat := t / 2 ^ 32 % 2 ^ 32

/-- Size in bytes of `tag_t`: two 32-bit bitfields sharing one 64-bit word. -/
def sizeof_tag_t : Nat := 8

/-- Size in bytes of `void *` on the 64-bit platforms the code targets; the
source asserts `sizeof(tag_t) == sizeof(void *)`. -/
def sizeof_void_ptr : Nat := 8

/-! ## pick_large_msg_size (src/tests/test_large_msg.cc, lines 43-53)

`uint32_t msg_size = sample % (kMaxMsgSize - kAppMinMsgSize) + kAppMinMsgSize`
where `sample = fastrand.next_u32()` and
`kAppMinMsgSize = max_data_per_pkt() + 1`. The arithmetic is done in 64-bit
(`size_t` constants) and the result is truncated to `uint32_t`. -/

/-- The test constant `kAppMinMsgSize`, defined in the source as
`Rpc<IBTransport>::max_data_per_pkt() + 1` (at least two packets). -/
def kAppMinMsgSize (max_data_per_pkt : Nat) : Nat := max_data_per_pkt + 1

/-- The message-size choice of `pick_large_msg_size`, with the store into the
`uint32_t` local made explicit as `% 2 ^ 32`. -/
def pick_large_msg_size (kMaxMsgSize kAppMinMsgSize_v sample : Nat) : Nat :=
  (sample % (kMaxMsgSize - kAppMinMsgSize_v) + kAppMinMsgSize_v) % 2 ^ 32

/-! ## Request payload fill and response check
(src/apps/small_rpc_bandwidth/small_rpc_bandwidth.cc, lines 157-168 and
219-231, the `kAppPayloadCheck` branches)

`send_reqs` fills the request buffer with `buf[0] = fastrand.next_u32()`
(truncated to a byte) and `buf[j] = buf[0] + j` for `1 <= j < msg_size`
(byte wraparound). `app_cont_func` checks every byte of the response against
`(uint8_t)(buf[0] + i)` and exits on a mismatch. -/

/-- The request buffer produced by the `kAppPayloadCheck` branch of
`send_reqs`: byte 0 is the random seed truncated to a byte, byte `j >= 1` is
`buf[0] + j` in byte arithmetic. -/
def fill_req_payload (r msg_size : Nat) : List Nat :=
  (List.range msg_size).map fun j => if j = 0 then byteMod r else byteMod (byteMod r + j)

/-- The per-byte validation of the `kAppPayloadCheck` branch of
`app_cont_func`: every byte `i` of the response must equal
`(uint8_t)(buf[0] + i)`. Returns `false` exactly when the benchmark would
print `Invalid resp` and exit. -/
def check_resp_payload (buf : List Nat) : Bool :=
  decide (∀ i < buf.length, buf.getD i 0 = byteMod (buf.getD 0 0 + i))

/-! ## Echo request handlers

Two registered echo handlers are in the source:
* `req_handler` of src/tests/test_large_msg.cc (lines 57-84): allocates a
  response buffer of the request size and `memcpy`s the whole request into it.
* `req_handler` of src/apps/small_rpc_bandwidth/small_rpc_bandwidth.cc
  (lines 179-199): resizes the preallocated response buffer to the request
  size, then copies the whole request only under `kAppPayloadCheck`;
  otherwise it copies only byte 0. -/

/-- C `memcpy(dst, src, n)` on byte buffers: the first `n` bytes of `dst`
become the first `n` bytes of `src`; the rest of `dst` is unchanged. -/
def memcpyBytes (dst src : List Nat) (n : Nat) : List Nat :=
  (List.range dst.length).map fun i => if i < n then src.getD i 0 else dst.getD i 0

/-- The test_large_msg echo handler: `alloc_msg_buffer(req_size)` yields a
buffer `fresh` (arbitrary initial contents, of the request size), and the
whole request is copied into it before `enqueue_response`. -/
def req_handler_large_msg (req fresh : List Nat) : List Nat :=
  memcpyBytes fresh req req.length

/-- `resize_msg_buffer` adjusts the logical data size downward without
reallocation: the visible payload becomes the first `n` bytes. -/
def resize_msg_buffer (buf : List Nat) (n : Nat) : List Nat := buf.take n

/-- The compile-time constant of small_rpc_bandwidth.cc, line 16:
`static constexpr bool kAppPayloadCheck = false`. -/
def kAppPayloadCheck : Bool := false

/-- The small_rpc_bandwidth echo handler: resize the preallocated response
buffer `pre_resp` to the request size, then either copy the whole request
(`payloadCheck` true) or only byte 0 (`payloadCheck` false). -/
def req_handler_bw (payloadCheck : Bool) (req pre_resp : List Nat) : List Nat :=
  let resp := resize_msg_buffer pre_resp req.length
  if payloadCheck then memcpyBytes resp req req.length
  else resp.set 0 (req.getD 0 0)

/-! ## app_stats_t (src/apps/small_rpc_bandwidth/small_rpc_bandwidth.cc,
lines 63-115)

Eight 8-byte fields: `double mrps`, `size_t num_re_tx`, four `double`
latency percentiles, `size_t pad[2]`; the source asserts
`sizeof(app_stats_t) == 64`. The constructor `memset`s the whole struct to
zero. `operator+=` always adds `mrps` and `num_re_tx` and adds the latency
fields only under `kAppMeasureLatency`. Doubles are modelled as `Rat`; the
claim is about which fields are read and written, not rounding. -/

structure app_stats_t where
  mrps : Rat
  num_re_tx : Nat
  lat_us_50 : Rat
  lat_us_99 : Rat
  lat_us_999 : Rat
  lat_us_9999 : Rat
  pad0 : Nat
  pad1 : Nat
deriving DecidableEq

/-- The default constructor `app_stats_t() { memset(this, 0, sizeof); }`:
every field is zero. -/
def app_stats_init : app_stats_t := ⟨0, 0, 0, 0, 0, 0, 0, 0⟩

/-- Size in bytes of `app_stats_t`: eight fields of eight bytes each, no
interior padding (all members are 8-byte aligned). -/
def sizeof_app_stats_t : Nat := 8 + 8 + 8 + 8 + 8 + 8 + 8 + 8

/-- The compile-time constant of small_rpc_bandwidth.cc, line 14:
`static constexpr bool kAppMeasureLatency = false`. -/
def kAppMeasureLatency : Bool := false

/-- `app_stats_t::operator+=`: accumulate `mrps` and `num_re_tx` from the
right operand, and the four latency fields only when `measureLatency`. -/
def app_stats_add (measureLatency : Bool) (l r : app_stats_t) : app_stats_t :=
  let base : app_stats_t :=
    { l with mrps := l.mrps + r.mrps, num_re_tx := l.num_re_tx + r.num_re_tx }
  if measureLatency then
    { base with
      lat_us_50 := base.lat_us_50 + r.lat_us_50
      lat_us_99 := base.lat_us_99 + r.lat_us_99
      lat_us_999 := base.lat_us_999 + r.lat_us_999
      lat_us_9999 := base.lat_us_9999 + r.lat_us_9999 }
  else base

/-! ## Session credits and enqueue_request -/

/-- Modelled from the spec: the `Rpc` engine (`enqueue_request`, `Session`
credit accounting, the event loop returning credits) is not under src/; only
its tests and callers are. Per the spec, a `Session` holds "the current
count of available send credits", `kSessionCredits` (default 8) in total. -/
structure SessionCredits where
  credits : Nat
deriving DecidableEq

/-- The spec default for `kSessionCredits`: 8; also the number of slots per
session. -/
def kSessionCredits : Nat := 8

/-- Modelled from the spec: the nonzero status with which `enqueue_request`
fails when no credit is available ("transient; session healthy, caller must
retry"). Its concrete nonzero value is not pinned by the spec. -/
def kNoCreditsStatus : Nat := 1

/-- Modelled from the spec: "`enqueue_request` never blocks: if no credit is
available it fails with `NoCredits` and the caller must retry after running
the event loop." A successful enqueue returns status 0 and consumes one
credit; with zero credits it returns the nonzero `NoCredits` status with the
session unchanged. -/
def enqueue_request (s : SessionCredits) : Nat × SessionCredits :=
  if s.credits = 0 then (kNoCreditsStatus, s) else (0, ⟨s.credits - 1⟩)

/-- Modelled from the spec: a completed response returns its request's
credit to the session (credits returned via the event loop). -/
def deliver_response (s : SessionCredits) : SessionCredits := ⟨s.credits + 1⟩

/-- Enqueue `n` requests in sequence, collecting the returned statuses. -/
def enqueue_many (n : Nat) (s : SessionCredits) : List Nat × SessionCredits :=
  match n with
  | 0 => ([], s)
  | n + 1 =>
      let r1 := enqueue_request s
      let rest := enqueue_many n r1.2
      (r1.1 :: rest.1, rest.2)

/-! ## Many-sessions scenario (src/tests/test_large_msg.cc, lines 365-446)

`TEST(MultiLargeRpcMultiSession, Foreground)` opens
`(kRpcUnexpPktWindow / kSessionCredits) + 2` sessions; the client body runs
`for iter < 5` iterations, resets `num_rpc_resps` to 0, enqueues one request
per `(sess_i, crd_i)` pair with `sess_i < num_sessions` and
`crd_i < kSessionCredits`, and waits until `num_rpc_resps` (incremented by
exactly one in `cont_func`, line 106) reaches
`tot_reqs_per_iter = num_sessions * kSessionCredits`. The engine constant
`kRpcUnexpPktWindow` is not under src/, so it stays a parameter. -/

/-- The session count of the many-sessions test:
`(kRpcUnexpPktWindow / kSessionCredits) + 2`. -/
def multi_session_num_sessions (kRpcUnexpPktWindow credits : Nat) : Nat :=
  kRpcUnexpPktWindow / credits + 2

/-- The iteration count of `multi_large_rpc_multi_session`: `iter < 5`. -/
def kMultiSessionIters : Nat := 5

/-- The `(sess_i, crd_i)` pairs for which one iteration calls
`enqueue_request`, in the nested-loop order of the source. -/
def iter_enqueues (num_sessions credits : Nat) : List (Nat × Nat) :=
  (List.range num_sessions).flatMap fun sess_i =>
    (List.range credits).map fun crd_i => (sess_i, crd_i)

/-- Folding `cont_func` (which does `context.num_rpc_resps++`) over one
response per completed request, starting from the iteration's reset value 0. -/
def cont_resps_total (completed : List (Nat × Nat)) : Nat :=
  completed.foldl (fun num_rpc_resps _ => num_rpc_resps + 1) 0

/-! ## Session teardown and num_active_sessions -/

/-- Modelled from the spec: `destroy_session` / `num_active_sessions` live in
the engine, which is not under src/. The RPC instance owns a session table;
`num_active_sessions` is the number of sessions still in it. -/
def num_active_sessions (sessions : List Nat) : Nat := sessions.length

/-- Modelled from the spec: when a `destroy_session` disconnect handshake
completes through the event loop, that session is released from the table
("After `destroy_session` completes, `num_active_sessions` decreases by
exactly one"). -/
def destroy_session_complete (sessions : List Nat) (sn : Nat) : List Nat :=
  sessions.erase sn

/-- Draining the disconnect handshakes of every session the client created:
each session's `destroy_session` completion fires once. -/
def drain_all_sessions (sessions : List Nat) : List Nat :=
  sessions.foldl destroy_session_complete sessions

/-! ## MsgBuffer headroom (spec section 3; read by
src/apps/test_memcpy/test_memcpy.cc line 87, `msg_buffer.buf_ - 42`) -/

/-- Number of MTU-sized fragments of a message: `ceil(msg_size / mtu)`. -/
def num_pkts (mtu msg_size : Nat) : Nat := (msg_size + mtu - 1) / mtu

/-- Modelled from the spec: the MsgBuffer allocator is not under src/. Per
the spec, a MsgBuffer has "an implicit header area preceding the payload
sized to hold one packet header per fragment", i.e. headroom
`ceil(msg_size / MTU) * sizeof(pkt_hdr)`. -/
def msgbuf_headroom (mtu hdr_size msg_size : Nat) : Nat :=
  num_pkts mtu msg_size * hdr_size

/-- Layout of an allocated MsgBuffer: total region size and the byte offset
of the application payload pointer `buf_` inside the region. -/
structure MsgBufferLayout where
  region_size : Nat
  buf_off : Nat
deriving DecidableEq

/-- Modelled from the spec: `alloc_msg_buffer(msg_size)` reserves the header
area before the payload, so `buf_` sits `msgbuf_headroom` bytes into a
region of `msgbuf_headroom + msg_size` bytes. -/
def alloc_msg_buffer (mtu hdr_size msg_size : Nat) : MsgBufferLayout :=
  ⟨msgbuf_headroom mtu hdr_size msg_size + msg_size,
   msgbuf_headroom mtu hdr_size msg_size⟩

/-! ## Bandwidth client outstanding-request discipline
(src/apps/small_rpc_bandwidth/small_rpc_bandwidth.cc, lines 146-177,
246-249, 424-444)

`client_func` calls `send_reqs(c, i)` once for every batch index
`i < FLAGS_concurrency`, then loops: run the event loop once (continuations
for completed requests fire, each incrementing `stat_resp_rx_tot` and
inserting its batch index into `free_concurrency`), then resend one request
for every index in `free_concurrency` and clear the set. A state holds the
batch indices with a request in flight (as a list, so that the claimed
at-most-one property is a theorem, not a representation artifact), the
`free_concurrency` set, and the response counter. -/

structure ClientLoopState where
  outstanding : List Nat
  free_concurrency : List Nat
  stat_resp_rx_tot : Nat

/-- The client state after the initial `for i < concurrency, send_reqs(c, i)`
loop: every batch index has exactly one request in flight. -/
def client_init (concurrency : Nat) : ClientLoopState :=
  ⟨List.range concurrency, [], 0⟩

/-- The reachable states of the bandwidth client's work loop, indexed by the
number of continuation invocations so far. `cont_fires i` is `app_cont_func`
completing the outstanding request of batch `i` (increment the counter,
free the batch); `loop_resend` is the `for m in free_concurrency:
send_reqs(m)` pass followed by `free_concurrency.clear()`. -/
inductive ClientReach (concurrency : Nat) : ClientLoopState → Nat → Prop where
  | start : ClientReach concurrency (client_init concurrency) 0
  | cont_fires {s : ClientLoopState} {n : Nat} (i : Nat)
      (hprev : ClientReach concurrency s n) (hmem : i ∈ s.outstanding) :
      ClientReach concurrency
        ⟨s.outstanding.erase i, s.free_concurrency.insert i,
         s.stat_resp_rx_tot + 1⟩ (n + 1)
  | loop_resend {s : ClientLoopState} {n : Nat}
      (hprev : ClientReach concurrency s n) :
      ClientReach concurrency
        ⟨s.outstanding ++ s.free_concurrency, [], s.stat_resp_rx_tot⟩ n

end ERpcModel

namespace ERpcModel

/-- C3: packing two 32-bit values into `tag_t`, passing it through the
continuation API as a `void *`, and reconstructing it recovers exactly the
original `batch_i` and `msgbuf_i`; the encoded value fits in one `void *`
word and `sizeof(tag_t) = sizeof(void *)`. -/
theorem tag_t_roundtrip (batch_i msgbuf_i : Nat)
    (hb : batch_i < 2 ^ 32) (hm : msgbuf_i < 2 ^ 32) :
    tag_t_batch_i (tag_t_encode batch_i msgbuf_i) = batch_i ∧
    tag_t_msgbuf_i (tag_t_encode batch_i msgbuf_i) = msgbuf_i ∧
    tag_t_encode batch_i msgbuf_i < 2 ^ 64 ∧
    sizeof_tag_t = sizeof_void_ptr := by
  unfold tag_t_batch_i tag_t_msgbuf_i tag_t_encode sizeof_tag_t sizeof_void_ptr
  rw [Nat.mod_eq_of_lt hb, Nat.mod_eq_of_lt hm]
  refine ⟨?_, ?_, ?_, rfl⟩
  · omega
  · omega
  · omega

/-- Witness for C3 at the concrete pair (7, 11). -/
theorem tag_t_roundtrip_witness :
    tag_t_batch_i (tag_t_encode 7 11) = 7 ∧
    tag_t_msgbuf_i (tag_t_encode 7 11) = 11 ∧
    tag_t_encode 7 11 < 2 ^ 64 ∧
    sizeof_tag_t = sizeof_void_ptr :=
  tag_t_roundtrip 7 11 (by decide) (by decide)

/-- C5: for every 32-bit sample, the size chosen by `pick_large_msg_size`
lies in `[max_data_per_pkt + 1, kMaxMsgSize]`: at least two packets and never
above `kMaxMsgSize`. -/
theorem pick_large_msg_size_in_range (kMaxMsgSize max_data_per_pkt sample : Nat)
    (hs : sample < 2 ^ 32)
    (hlt : kAppMinMsgSize max_data_per_pkt < kMaxMsgSize)
    (hmax : kMaxMsgSize ≤ 2 ^ 32) :
    kAppMinMsgSize max_data_per_pkt ≤
      pick_large_msg_size kMaxMsgSize (kAppMinMsgSize max_data_per_pkt) sample ∧
    pick_large_msg_size kMaxMsgSize (kAppMinMsgSize max_data_per_pkt) sample ≤
      kMaxMsgSize := by
  unfold pick_large_msg_size kAppMinMsgSize at *
  have hd : 0 < kMaxMsgSize - (max_data_per_pkt + 1) := by omega
  have h1 : sample % (kMaxMsgSize - (max_data_per_pkt + 1)) <
      kMaxMsgSize - (max_data_per_pkt + 1) := Nat.mod_lt _ hd
  have h2 : sample % (kMaxMsgSize - (max_data_per_pkt + 1)) + (max_data_per_pkt + 1) <
      2 ^ 32 := by omega
  rw [Nat.mod_eq_of_lt h2]
  omega

/-- Witness for C5 with `kMaxMsgSize = 8388608`, MTU payload 4080, sample
123456789. -/
theorem pick_large_msg_size_in_range_witness :
    kAppMinMsgSize 4080 ≤ pick_large_msg_size 8388608 (kAppMinMsgSize 4080) 123456789 ∧
    pick_large_msg_size 8388608 (kAppMinMsgSize 4080) 123456789 ≤ 8388608 :=
  pick_large_msg_size_in_range 8388608 4080 123456789 (by decide) (by decide) (by decide)

/-- C8: filling a request of size `s >= 1` as `buf[0] = r`,
`buf[j] = buf[0] + j` (byte wraparound) always passes the continuation's
per-byte validation when the response bytes equal the request bytes: fill
followed by exact echo never triggers the Invalid-resp exit. -/
theorem fill_then_check_passes (r s : Nat) (hs : 1 ≤ s) :
    check_resp_payload (fill_req_payload r s) = true := by
  unfold check_resp_payload fill_req_payload
  rw [decide_eq_true_iff]
  intro i hi
  rw [List.length_map, List.length_range] at hi
  have h0 : 0 < s := hs
  have hget : ∀ j, j < s →
      (((List.range s).map fun j => if j = 0 then byteMod r else byteMod (byteMod r + j)).getD j 0) =
      if j = 0 then byteMod r else byteMod (byteMod r + j) := by
    intro j hj
    rw [List.getD_eq_getElem _ _ (by simpa using hj)]
    simp
  rw [hget i hi, hget 0 h0]
  simp only [if_pos rfl]
  by_cases hi0 : i = 0
  · subst hi0
    simp [byteMod]
  · rw [if_neg hi0]
    simp

/-- Witness for C8 at seed 300 and size 5. -/
theorem fill_then_check_passes_witness :
    check_resp_payload (fill_req_payload 300 5) = true :=
  fill_then_check_passes 300 5 (by decide)

/-- Reading every index of a list back with `getD` reproduces the list. -/
theorem getD_range_map_eq (l : List Nat) :
    ((List.range l.length).map fun i => l.getD i 0) = l := by
  apply List.ext_getElem
  · simp
  · intro i h1 h2
    simp only [List.getElem_map, List.getElem_range]
    rw [List.getD_eq_getElem _ _ h2]

/-- Copying all of `src` over a destination of the same length yields `src`. -/
theorem memcpyBytes_full (dst src : List Nat) (hlen : dst.length = src.length) :
    memcpyBytes dst src src.length = src := by
  unfold memcpyBytes
  rw [hlen]
  have hcongr : ∀ i ∈ List.range src.length,
      (if i < src.length then src.getD i 0 else dst.getD i 0) = src.getD i 0 := by
    intro i hi
    rw [List.mem_range] at hi
    simp [hi]
  rw [List.map_congr_left hcongr, getD_range_map_eq]

/-- C2 counterexample: with the source's compiled `kAppPayloadCheck = false`,
the small_rpc_bandwidth echo handler does not copy bytes past index 0: for
the request [1, 2] and a zeroed preallocated response buffer, the enqueued
response is [1, 0], not the request. -/
theorem bw_handler_not_full_echo :
    ¬ req_handler_bw kAppPayloadCheck [1, 2] [0, 0] = [1, 2] := by decide

/-- C2 amended: the test_large_msg echo handler enqueues a response with
`S.size = R.size` and `S.bytes = R.bytes`; the small_rpc_bandwidth handler
guarantees `S.size = R.size` always, full byte equality when
`kAppPayloadCheck` is true, and only byte 0 equality when it is false. -/
theorem echo_handlers_roundtrip (req fresh pre_resp : List Nat)
    (hfresh : fresh.length = req.length) (hpre : req.length ≤ pre_resp.length)
    (hne : 0 < req.length) :
    req_handler_large_msg req fresh = req ∧
    req_handler_bw true req pre_resp = req ∧
    (req_handler_bw false req pre_resp).length = req.length ∧
    (req_handler_bw false req pre_resp).getD 0 0 = req.getD 0 0 := by
  have htake : (resize_msg_buffer pre_resp req.length).length = req.length := by
    simp [resize_msg_buffer, hpre]
  refine ⟨memcpyBytes_full fresh req hfresh, ?_, ?_, ?_⟩
  · unfold req_handler_bw
    simp only [if_pos]
    exact memcpyBytes_full _ req htake
  · unfold req_handler_bw
    simp only [if_neg]
    simpa using htake
  · unfold req_handler_bw
    simp only [Bool.false_eq_true, if_false]
    have h0 : 0 < (resize_msg_buffer pre_resp req.length).length := by
      rw [htake]; exact hne
    rw [List.getD_eq_getElem _ _ (by simpa using h0)]
    simp [List.getElem_set]

/-- Witness for C2 amended at request [3, 4], fresh buffer [0, 0],
preallocated response [9, 9, 9]. -/
theorem echo_handlers_roundtrip_witness :
    req_handler_large_msg [3, 4] [0, 0] = [3, 4] ∧
    req_handler_bw true [3, 4] [9, 9, 9] = [3, 4] ∧
    (req_handler_bw false [3, 4] [9, 9, 9]).length = 2 ∧
    (req_handler_bw false [3, 4] [9, 9, 9]).getD 0 0 = 3 := by
  have h := echo_handlers_roundtrip [3, 4] [0, 0] [9, 9, 9]
    (by decide) (by decide) (by decide)
  exact ⟨h.1, h.2.1, h.2.2.1, h.2.2.2⟩

/-- C9: a default-constructed `app_stats_t` has every field zero, the struct
occupies 64 bytes, and with `kAppMeasureLatency = false` the compiled
`operator+=` adds only `mrps` and `num_re_tx`, leaving the left operand's
four latency fields and padding unchanged. -/
theorem app_stats_zero_size_frame :
    (app_stats_init.mrps = 0 ∧ app_stats_init.num_re_tx = 0 ∧
     app_stats_init.lat_us_50 = 0 ∧ app_stats_init.lat_us_99 = 0 ∧
     app_stats_init.lat_us_999 = 0 ∧ app_stats_init.lat_us_9999 = 0 ∧
     app_stats_init.pad0 = 0 ∧ app_stats_init.pad1 = 0) ∧
    sizeof_app_stats_t = 64 ∧
    ∀ l r : app_stats_t,
      (app_stats_add kAppMeasureLatency l r).mrps = l.mrps + r.mrps ∧
      (app_stats_add kAppMeasureLatency l r).num_re_tx = l.num_re_tx + r.num_re_tx ∧
      (app_stats_add kAppMeasureLatency l r).lat_us_50 = l.lat_us_50 ∧
      (app_stats_add kAppMeasureLatency l r).lat_us_99 = l.lat_us_99 ∧
      (app_stats_add kAppMeasureLatency l r).lat_us_999 = l.lat_us_999 ∧
      (app_stats_add kAppMeasureLatency l r).lat_us_9999 = l.lat_us_9999 ∧
      (app_stats_add kAppMeasureLatency l r).pad0 = l.pad0 ∧
      (app_stats_add kAppMeasureLatency l r).pad1 = l.pad1 := by
  refine ⟨⟨rfl, rfl, rfl, rfl, rfl, rfl, rfl, rfl⟩, rfl, ?_⟩
  intro l r
  simp [app_stats_add, kAppMeasureLatency]

/-- C1: on a connected session holding all `kSessionCredits` credits, the
first `kSessionCredits` enqueues succeed (status 0), the next
`enqueue_request` returns the nonzero `NoCredits` status without blocking
and leaves the session unchanged, and after a response returns a credit via
the event loop a retried enqueue succeeds. -/
theorem enqueue_request_no_credits_then_retry :
    ((enqueue_many kSessionCredits ⟨kSessionCredits⟩).1.all fun st => st == 0) = true ∧
    enqueue_request (enqueue_many kSessionCredits ⟨kSessionCredits⟩).2 =
      (kNoCreditsStatus, (enqueue_many kSessionCredits ⟨kSessionCredits⟩).2) ∧
    kNoCreditsStatus ≠ 0 ∧
    (enqueue_request (deliver_response
      (enqueue_many kSessionCredits ⟨kSessionCredits⟩).2)).1 = 0 := by
  decide

/-- One iteration of the many-sessions test enqueues exactly
`num_sessions * credits` requests. -/
theorem iter_enqueues_length (num_sessions credits : Nat) :
    (iter_enqueues num_sessions credits).length = num_sessions * credits := by
  induction num_sessions with
  | zero => simp [iter_enqueues]
  | succ ns ih =>
      unfold iter_enqueues at *
      rw [List.range_succ, List.flatMap_append, List.length_append, ih]
      simp [Nat.succ_mul]

/-- Folding the counter increment over a list counts its elements. -/
theorem cont_resps_total_eq_length (completed : List (Nat × Nat)) :
    cont_resps_total completed = completed.length := by
  unfold cont_resps_total
  have hgen : ∀ (l : List (Nat × Nat)) (n : Nat),
      l.foldl (fun num_rpc_resps _ => num_rpc_resps + 1) n = n + l.length := by
    intro l
    induction l with
    | nil => simp
    | cons x xs ih => intro n; simp [ih]; omega
  simpa using hgen completed 0

/-- C4: the many-sessions scenario opens exactly
`(kRpcUnexpPktWindow / kSessionCredits) + 2` sessions, runs five iterations
each enqueueing `kSessionCredits` requests per session, and when each
enqueued request's continuation fires exactly once the iteration's response
counter reaches `num_sessions * kSessionCredits`. -/
theorem multi_session_scenario_counts (kRpcUnexpPktWindow : Nat) :
    multi_session_num_sessions kRpcUnexpPktWindow kSessionCredits =
      kRpcUnexpPktWindow / kSessionCredits + 2 ∧
    kMultiSessionIters = 5 ∧
    (iter_enqueues (multi_session_num_sessions kRpcUnexpPktWindow kSessionCredits)
        kSessionCredits).length =
      multi_session_num_sessions kRpcUnexpPktWindow kSessionCredits *
        kSessionCredits ∧
    cont_resps_total
        (iter_enqueues (multi_session_num_sessions kRpcUnexpPktWindow kSessionCredits)
          kSessionCredits) =
      multi_session_num_sessions kRpcUnexpPktWindow kSessionCredits *
        kSessionCredits := by
  refine ⟨rfl, rfl, iter_enqueues_length _ _, ?_⟩
  rw [cont_resps_total_eq_length, iter_enqueues_length]

/-- The fold that completes every created session's disconnect handshake
empties the session table. -/
theorem drain_all_sessions_empty (sessions : List Nat) :
    drain_all_sessions sessions = [] := by
  unfold drain_all_sessions destroy_session_complete
  induction sessions with
  | nil => rfl
  | cons x xs ih =>
      show List.foldl (fun acc sn => acc.erase sn) ((x :: xs).erase x) xs = []
      rw [List.erase_cons_head]
      exact ih

/-- C6: each `destroy_session` completion decreases `num_active_sessions` by
exactly one, and after the client has destroyed every session it created and
the handshakes have drained, the observed `num_active_sessions` is 0. -/
theorem destroy_session_decrements (sessions : List Nat) (sn : Nat)
    (h : sn ∈ sessions) :
    num_active_sessions (destroy_session_complete sessions sn) + 1 =
      num_active_sessions sessions ∧
    num_active_sessions (drain_all_sessions sessions) = 0 := by
  constructor
  · unfold num_active_sessions destroy_session_complete
    have hlen := List.length_erase_of_mem h
    have hpos : 0 < sessions.length := List.length_pos.2 (by
      intro hnil
      rw [hnil] at h
      exact (List.not_mem_nil sn) h)
    omega
  · rw [drain_all_sessions_empty]
    rfl

/-- Witness for C6 with session table [5, 7] and session number 5. -/
theorem destroy_session_decrements_witness :
    num_active_sessions (destroy_session_complete [5, 7] 5) + 1 =
      num_active_sessions [5, 7] ∧
    num_active_sessions (drain_all_sessions [5, 7]) = 0 :=
  destroy_session_decrements [5, 7] 5 (by decide)

/-- C7 counterexample: the claim quantifies over every `msg_size`, but at
`msg_size = 0` (the default of the benchmark's `--msg_size` flag) the
reserved header area is `ceil(0 / MTU) * sizeof(pkt_hdr) = 0` bytes, so the
42 bytes before `buf_` do not lie inside the allocated region (shown at
MTU 1024 and a 56-byte DPDK packet header). -/
theorem memcpy_headroom_counterexample :
    ¬ 42 ≤ (alloc_msg_buffer 1024 56 0).buf_off := by decide

/-- C7 amended: the headroom before `buf_` is at least
`ceil(msg_size / MTU) * sizeof(pkt_hdr)` for every `msg_size`, and for every
`msg_size ≥ 1`, provided `sizeof(pkt_hdr) ≥ 42`, the 42 bytes immediately
before `buf_` (and the `msg_size` payload bytes after it) lie inside the
allocated region. -/
theorem msgbuf_headroom_bound (mtu hdr_size msg_size : Nat) (hmtu : 0 < mtu) :
    num_pkts mtu msg_size * hdr_size ≤ (alloc_msg_buffer mtu hdr_size msg_size).buf_off ∧
    (1 ≤ msg_size → 42 ≤ hdr_size →
      42 ≤ (alloc_msg_buffer mtu hdr_size msg_size).buf_off ∧
      (alloc_msg_buffer mtu hdr_size msg_size).buf_off + msg_size ≤
        (alloc_msg_buffer mtu hdr_size msg_size).region_size) := by
  refine ⟨Nat.le_refl _, fun hmsg h42 => ⟨?_, Nat.le_refl _⟩⟩
  show 42 ≤ msgbuf_headroom mtu hdr_size msg_size
  unfold msgbuf_headroom
  have hnp : 1 ≤ num_pkts mtu msg_size := by
    unfold num_pkts
    rw [Nat.le_div_iff_mul_le hmtu]
    omega
  have hmul : 1 * hdr_size ≤ num_pkts mtu msg_size * hdr_size :=
    Nat.mul_le_mul_right hdr_size hnp
  omega

/-- Witness for C7 amended at MTU 1024, 56-byte packet header, message size
2000. -/
theorem msgbuf_headroom_bound_witness :
    num_pkts 1024 2000 * 56 ≤ (alloc_msg_buffer 1024 56 2000).buf_off ∧
    42 ≤ (alloc_msg_buffer 1024 56 2000).buf_off ∧
    (alloc_msg_buffer 1024 56 2000).buf_off + 2000 ≤
      (alloc_msg_buffer 1024 56 2000).region_size := by
  have h := msgbuf_headroom_bound 1024 56 2000 (by decide)
  exact ⟨h.1, (h.2 (by decide) (by decide)).1, (h.2 (by decide) (by decide)).2⟩

/-- Every reachable client-loop state keeps the in-flight batch indices and
the freed batch indices jointly a permutation of the initial batch range,
and the counter equals the number of continuation invocations. -/
theorem clientReach_perm {concurrency : Nat} {s : ClientLoopState} {n : Nat}
    (h : ClientReach concurrency s n) :
    (s.outstanding ++ s.free_concurrency).Perm (List.range concurrency) ∧
    s.stat_resp_rx_tot = n := by
  induction h with
  | start =>
      refine ⟨?_, rfl⟩
      show (List.range concurrency ++ []).Perm (List.range concurrency)
      rw [List.append_nil]
  | @cont_fires s n i hprev hmem ih =>
      obtain ⟨hperm, hstat⟩ := ih
      have hnd : (s.outstanding ++ s.free_concurrency).Nodup :=
        hperm.nodup_iff.2 (List.nodup_range _)
      have hfree : i ∉ s.free_concurrency :=
        (List.disjoint_of_nodup_append hnd) hmem
      refine ⟨?_, by simpa using hstat⟩
      show (s.outstanding.erase i ++ s.free_concurrency.insert i).Perm
        (List.range concurrency)
      rw [List.insert_of_not_mem hfree]
      have h1 : (s.outstanding.erase i ++ i :: s.free_concurrency).Perm
          (i :: (s.outstanding.erase i ++ s.free_concurrency)) :=
        List.perm_middle
      have h2 : ((i :: s.outstanding.erase i) ++ s.free_concurrency).Perm
          (s.outstanding ++ s.free_concurrency) :=
        ((List.perm_cons_erase hmem).symm).append_right _
      exact (h1.trans h2).trans hperm
  | @loop_resend s n hprev ih =>
      obtain ⟨hperm, hstat⟩ := ih
      refine ⟨?_, by simpa using hstat⟩
      show ((s.outstanding ++ s.free_concurrency) ++ []).Perm
        (List.range concurrency)
      rw [List.append_nil]
      exact hperm

/-- C10: in every reachable state of the bandwidth client's work loop, each
batch index has at most one request outstanding, a freed batch index has no
request outstanding, outstanding plus freed batches account for exactly the
`concurrency` batch indices, and `stat_resp_rx_tot` equals the number of
continuation invocations — each invocation incremented it by exactly one per
completed request. -/
theorem client_at_most_one_outstanding {concurrency : Nat}
    {s : ClientLoopState} {n : Nat} (h : ClientReach concurrency s n) :
    (∀ i, s.outstanding.count i ≤ 1) ∧
    (∀ i ∈ s.free_concurrency, i ∉ s.outstanding) ∧
    s.outstanding.length + s.free_concurrency.length = concurrency ∧
    s.stat_resp_rx_tot = n := by
  obtain ⟨hperm, hstat⟩ := clientReach_perm h
  have hnd : (s.outstanding ++ s.free_concurrency).Nodup :=
    hperm.nodup_iff.2 (List.nodup_range _)
  refine ⟨?_, ?_, ?_, hstat⟩
  · intro i
    exact List.nodup_iff_count_le_one.1 (List.Nodup.of_append_left hnd) i
  · intro i hifree hiout
    exact (List.disjoint_of_nodup_append hnd) hiout hifree
  · have hlen := hperm.length_eq
    simpa using hlen

/-- Witness for C10: the state after the initial sends for concurrency 2 and
one continuation firing for batch 0. -/
theorem client_at_most_one_outstanding_witness :
    (ClientLoopState.mk ((client_init 2).outstanding.erase 0)
        ((client_init 2).free_concurrency.insert 0)
        ((client_init 2).stat_resp_rx_tot + 1)).outstanding.count 0 ≤ 1 ∧
    (ClientLoopState.mk ((client_init 2).outstanding.erase 0)
        ((client_init 2).free_concurrency.insert 0)
        ((client_init 2).stat_resp_rx_tot + 1)).stat_resp_rx_tot = 1 := by
  have h := client_at_most_one_outstanding
    (ClientReach.cont_fires 0 (@ClientReach.start 2) (by decide))
  exact ⟨h.1 0, h.2.2.2⟩

end ERpcModel
